import Mathlib

/-!
Verification development for `src/recognition/arcface_torch/backbones/mobilefacenet2.py`
(the MobileFaceNet2 face-embedding backbone).

The file is a shallow embedding of that Python module:

* `Desc` is the static layer-graph description built by the `__init__`
  constructors (`ConvBlock`, `LinearBlock`, `ECA`, `DepthWise`, `Residual`,
  `GDC`, `MobileFaceNet2`).  Each Lean definition mirrors the corresponding
  Python class constructor, with the same argument order and defaults applied
  at call sites exactly as in the source.
* `shapeOf` gives the shape semantics of each layer (tensor shapes are lists
  of natural numbers, `[N, C, H, W]`); the per-primitive shape rules
  (`conv2dShape`, `bn2dShape`, ...) follow the host library's documented
  shape behaviour for the ranks actually used in this file.
* `PLayer` attaches parameter values to a description; `initLayer` mirrors
  `MobileFaceNet2._initialize_weights` together with the library default
  initialisations, with the global RNG modelled as an explicit stream
  `r : Nat → Rat` of standard-normal draws.
* `applyP` / `MobileFaceNet2.forwardP` mirror the dataflow and state effects
  of `forward`, with the library kernels abstracted as a `LibSem` record.
* Small dedicated value-level models cover `ECA.forward` and `HSwish`.
-/

/-- Layer-graph description: one constructor per primitive layer kind used in
the source file, plus the three composite layouts that occur
(`nn.Sequential` composition, the `ECA` shortcut wrapper and the `DepthWise`
optional-residual wrapper).  `conv2dD` stores (in_c, out_c, kernel h/w,
stride h/w, padding h/w, groups); all convolutions in the source have
`bias=False`, so no bias flag is needed. -/
inductive Desc where
  | conv2dD (in_c out_c kh kw sh sw ph pw g : ℕ)
  | bn2dD (n : ℕ)
  | bn1dD (n : ℕ)
  | preluD (n : ℕ)
  | hswishD
  | sigmoidD
  | avgpoolD
  | flattenD
  | linearD (inF outF : ℕ) (hasBias : Bool)
  | seqD (ds : List Desc)
  | ecaD (ds : List Desc)
  | dwD (residual : Bool) (ds : List Desc)
deriving Repr

/-- ConvBlock(in_c, out_c, kernel, stride, padding, groups, use_hswish):
`Conv2d(bias=False)`, `BatchNorm2d(out_c)`, then `HSwish()` if `use_hswish`
else `PReLU(num_parameters=out_c)` (source lines 27-37). -/
def ConvBlock (in_c out_c : ℕ) (kernel stride padding : ℕ × ℕ) (groups : ℕ)
    (use_hswish : Bool) : Desc :=
  Desc.seqD [Desc.conv2dD in_c out_c kernel.1 kernel.2 stride.1 stride.2
               padding.1 padding.2 groups,
             Desc.bn2dD out_c,
             if use_hswish then Desc.hswishD else Desc.preluD out_c]

/-- LinearBlock(in_c, out_c, kernel, stride, padding, groups):
`Conv2d(bias=False)` then `BatchNorm2d(out_c)`, no activation
(source lines 40-49). -/
def LinearBlock (in_c out_c : ℕ) (kernel stride padding : ℕ × ℕ)
    (groups : ℕ) : Desc :=
  Desc.seqD [Desc.conv2dD in_c out_c kernel.1 kernel.2 stride.1 stride.2
               padding.1 padding.2 groups,
             Desc.bn2dD out_c]

/-- ECA(in_c): `AdaptiveAvgPool2d((1,1))`, `Flatten`, `Linear(in_c, in_c,
bias=True)`, `Sigmoid`; the `ecaD` wrapper records that `forward` reshapes
the result to (N, C, 1, 1) and combines it with the input shortcut
(source lines 52-69). -/
def ECA (in_c : ℕ) : Desc :=
  Desc.ecaD [Desc.avgpoolD, Desc.flattenD, Desc.linearD in_c in_c true,
             Desc.sigmoidD]

/-- DepthWise(in_c, out_c, residual, kernel, stride, padding, groups,
use_hswish): pointwise ConvBlock `in_c → groups`, grouped ConvBlock
`groups → groups` with `groups=groups`, pointwise LinearBlock
`groups → out_c` (source lines 72-81). -/
def DepthWise (in_c out_c : ℕ) (residual : Bool) (kernel stride padding : ℕ × ℕ)
    (groups : ℕ) (use_hswish : Bool) : Desc :=
  Desc.dwD residual
    [ConvBlock in_c groups (1, 1) (1, 1) (0, 0) 1 use_hswish,
     ConvBlock groups groups kernel stride padding groups use_hswish,
     LinearBlock groups out_c (1, 1) (1, 1) (0, 0) 1]

/-- Residual(c, num_block, groups, kernel, stride, padding, use_hswish):
`num_block` copies of `DepthWise(c, c, residual=True, ...)` in sequence
(source lines 95-104). -/
def Residual (c num_block groups : ℕ) (kernel stride padding : ℕ × ℕ)
    (use_hswish : Bool) : Desc :=
  Desc.seqD (List.replicate num_block
    (DepthWise c c true kernel stride padding groups use_hswish))

/-- GDC(embedding_size): `LinearBlock(512, 512, groups=512, kernel=(7,7))`,
`Flatten`, `Linear(512, embedding_size, bias=False)`,
`BatchNorm1d(embedding_size)` (source lines 107-117). -/
def GDC (embedding_size : ℕ) : Desc :=
  Desc.seqD [LinearBlock 512 512 (7, 7) (1, 1) (0, 0) 512,
             Desc.flattenD,
             Desc.linearD 512 embedding_size false,
             Desc.bn1dD embedding_size]

/-- The MobileFaceNet2 module: the `fp16` flag, the `self.layers` ModuleList,
and the `conv_sep` / `features` heads (source lines 120-152). -/
structure MobileFaceNet2 where
  scale : ℕ
  fp16 : Bool
  layers : List Desc
  conv_sep : Desc
  features : Desc
deriving Repr

/-- MobileFaceNet2.__init__(fp16, num_features, blocks, scale):
the layer list built on source lines 125-148, with the `blocks[0] == 1`
branch on lines 129-136, followed by `conv_sep` (line 150) and
`features = GDC(num_features)` (line 151). -/
def MobileFaceNet2.build (fp16 : Bool) (num_features : ℕ)
    (blocks : ℕ × ℕ × ℕ × ℕ) (scale : ℕ) : MobileFaceNet2 :=
  ⟨scale, fp16,
   ConvBlock 3 (64 * scale) (3, 3) (2, 2) (1, 1) 1 false
   :: (if blocks.1 = 1 then
         ConvBlock (64 * scale) (64 * scale) (3, 3) (1, 1) (1, 1) 64 false
       else
         Residual (64 * scale) blocks.1 128 (3, 3) (1, 1) (1, 1) false)
   :: [ECA (64 * scale),
       DepthWise (64 * scale) (64 * scale) false (3, 3) (2, 2) (1, 1) 128 false,
       Residual (64 * scale) blocks.2.1 128 (3, 3) (1, 1) (1, 1) false,
       DepthWise (64 * scale) (128 * scale) false (3, 3) (2, 2) (1, 1) 256 false,
       Residual (128 * scale) blocks.2.2.1 256 (3, 3) (1, 1) (1, 1) true,
       DepthWise (128 * scale) (128 * scale) false (3, 3) (2, 2) (1, 1) 512 true,
       Residual (128 * scale) blocks.2.2.2 256 (3, 3) (1, 1) (1, 1) true,
       ECA (128 * scale)],
   ConvBlock (128 * scale) 512 (1, 1) (1, 1) (0, 0) 1 true,
   GDC num_features⟩

/-- get_mbf2(fp16, num_features) with its default `blocks=(1, 4, 6, 2)`,
`scale=2` (source lines 177-178). -/
def get_mbf2 (fp16 : Bool) (num_features : ℕ) : MobileFaceNet2 :=
  MobileFaceNet2.build fp16 num_features (1, 4, 6, 2) 2

/-- get_mbf2_large(fp16, num_features) with its default `blocks=(2, 8, 12, 4)`,
`scale=4` (source lines 180-181). -/
def get_mbf2_large (fp16 : Bool) (num_features : ℕ) : MobileFaceNet2 :=
  MobileFaceNet2.build fp16 num_features (2, 8, 12, 4) 4

/-! ## Shape semantics

Tensor shapes are lists of natural numbers.  `conv2dShape` is the standard
`nn.Conv2d` output-shape rule (floor division), with the library's
applicability conditions: channel match, positive `groups` dividing both
channel counts, and kernel no larger than the padded input. -/

/-- Shape rule of `nn.Conv2d` on an (N, C, H, W) input. -/
def conv2dShape (in_c out_c kh kw sh sw ph pw g : ℕ) : List ℕ → Option (List ℕ)
  | [n, c, h, w] =>
      if c = in_c ∧ 0 < g ∧ in_c % g = 0 ∧ out_c % g = 0 ∧ 0 < sh ∧ 0 < sw ∧
         kh ≤ h + 2 * ph ∧ kw ≤ w + 2 * pw then
        some [n, out_c, (h + 2 * ph - kh) / sh + 1, (w + 2 * pw - kw) / sw + 1]
      else none
  | _ => none

/-- Shape rule of `nn.BatchNorm2d(m)`: requires C = m, preserves the shape. -/
def bn2dShape (m : ℕ) : List ℕ → Option (List ℕ)
  | [n, c, h, w] => if c = m then some [n, c, h, w] else none
  | _ => none

/-- Shape rule of `nn.BatchNorm1d(m)` at the rank used here (N, F). -/
def bn1dShape (m : ℕ) : List ℕ → Option (List ℕ)
  | [n, f] => if f = m then some [n, f] else none
  | _ => none

/-- Shape rule of `nn.PReLU(num_parameters=m)` on an (N, C, H, W) input:
`m` must be the channel count or 1; shape preserved. -/
def preluShape (m : ℕ) : List ℕ → Option (List ℕ)
  | [n, c, h, w] => if c = m ∨ m = 1 then some [n, c, h, w] else none
  | _ => none

/-- Shape rule of `nn.AdaptiveAvgPool2d((1, 1))`. -/
def avgpoolShape : List ℕ → Option (List ℕ)
  | [n, c, _, _] => some [n, c, 1, 1]
  | _ => none

/-- Shape rule of `Flatten` (`x.view(x.size(0), -1)`, source lines 12-14). -/
def flattenShape : List ℕ → Option (List ℕ)
  | n :: rest => some [n, rest.prod]
  | [] => none

/-- Shape rule of the `y.view(y.shape[0], -1, 1, 1)` reshape in `ECA.forward`
(source line 67). -/
def view4Shape : List ℕ → Option (List ℕ)
  | n :: rest => some [n, rest.prod, 1, 1]
  | [] => none

/-- Shape rule of `nn.Linear(fi, fo)` at the rank used here (N, F). -/
def linearShape (fi fo : ℕ) : List ℕ → Option (List ℕ)
  | [n, f] => if f = fi then some [n, fo] else none
  | _ => none

/-- One dimension of the library's broadcasting rule for `+`. -/
def broadcastDim (a b : ℕ) : Option ℕ :=
  if a = b then some a
  else if a = 1 then some b
  else if b = 1 then some a
  else none

/-- Broadcasting rule of tensor `+` for equal-rank shapes. -/
def broadcastAdd : List ℕ → List ℕ → Option (List ℕ)
  | [], [] => some []
  | a :: xs, b :: ys =>
      (broadcastDim a b).bind fun d =>
        (broadcastAdd xs ys).bind fun r => some (d :: r)
  | _, _ => none

mutual

/-- Shape semantics of a layer description.  The `ecaD` case mirrors
`ECA.forward` (source lines 62-69): run the pooled pipeline, reshape to
(N, C, 1, 1), then broadcast-combine with the shortcut.  The `dwD` case
mirrors `DepthWise.forward` (source lines 83-92): run the three blocks and,
when `residual`, combine with the shortcut. -/
def shapeOf : Desc → List ℕ → Option (List ℕ)
  | Desc.conv2dD i o kh kw sh sw ph pw g, s => conv2dShape i o kh kw sh sw ph pw g s
  | Desc.bn2dD m, s => bn2dShape m s
  | Desc.bn1dD m, s => bn1dShape m s
  | Desc.preluD m, s => preluShape m s
  | Desc.hswishD, s => some s
  | Desc.sigmoidD, s => some s
  | Desc.avgpoolD, s => avgpoolShape s
  | Desc.flattenD, s => flattenShape s
  | Desc.linearD fi fo _, s => linearShape fi fo s
  | Desc.seqD ds, s => shapeOfSeq ds s
  | Desc.ecaD ds, s =>
      (shapeOfSeq ds s).bind fun y => (view4Shape y).bind fun y2 => broadcastAdd y2 s
  | Desc.dwD res ds, s =>
      (shapeOfSeq ds s).bind fun y => if res then broadcastAdd s y else some y

/-- Shape semantics of a `nn.Sequential` list of layers. -/
def shapeOfSeq : List Desc → List ℕ → Option (List ℕ)
  | [], s => some s
  | d :: ds, s => (shapeOf d s).bind fun y => shapeOfSeq ds y

end

/-- Shape semantics of `MobileFaceNet2.forward` (source lines 168-174): the
`self.layers` loop, then `conv_sep`, then `features`.  The `x.float()` cast
and the autocast context do not change shapes. -/
def MobileFaceNet2.forwardShape (m : MobileFaceNet2) (s : List ℕ) : Option (List ℕ) :=
  (shapeOfSeq m.layers s).bind fun s1 =>
    (shapeOf m.conv_sep s1).bind fun s2 => shapeOf m.features s2

example : shapeOf (ECA 4) [2, 4, 5, 5] = some [2, 4, 5, 5] := by decide
example : shapeOf (GDC 9) [3, 512, 7, 7] = some [3, 9] := by decide
example : MobileFaceNet2.forwardShape (get_mbf2 false 512) [1, 3, 112, 112]
    = some [1, 512] := by decide

/-! ## Shape lemmas -/

lemma shapeOfSeq_nil (s : List ℕ) : shapeOfSeq [] s = some s := by
  simp [shapeOfSeq]

lemma shapeOfSeq_cons (d : Desc) (ds : List Desc) (s : List ℕ) :
    shapeOfSeq (d :: ds) s = (shapeOf d s).bind fun y => shapeOfSeq ds y := by
  simp [shapeOfSeq]

lemma shapeOf_seqD (ds : List Desc) (s : List ℕ) :
    shapeOf (Desc.seqD ds) s = shapeOfSeq ds s := by
  simp [shapeOf]

lemma broadcastDim_self (a : ℕ) : broadcastDim a a = some a := by
  simp [broadcastDim]

lemma broadcastDim_one_left (b : ℕ) : broadcastDim 1 b = some b := by
  rcases eq_or_ne 1 b with h | h
  · simp [broadcastDim, ← h]
  · simp [broadcastDim, h]

lemma broadcastAdd_self (l : List ℕ) : broadcastAdd l l = some l := by
  induction l with
  | nil => simp [broadcastAdd]
  | cons a t ih => simp [broadcastAdd, broadcastDim_self, ih]

lemma broadcastAdd_ones (n c h w : ℕ) :
    broadcastAdd [n, c, 1, 1] [n, c, h, w] = some [n, c, h, w] := by
  simp [broadcastAdd, broadcastDim_self, broadcastDim_one_left]

lemma conv2dShape_pos (i o kh kw sh sw ph pw g n h w : ℕ)
    (hg : 0 < g) (hi : i % g = 0) (ho : o % g = 0) (hsh : 0 < sh) (hsw : 0 < sw)
    (hkh : kh ≤ h + 2 * ph) (hkw : kw ≤ w + 2 * pw) :
    conv2dShape i o kh kw sh sw ph pw g [n, i, h, w]
      = some [n, o, (h + 2 * ph - kh) / sh + 1, (w + 2 * pw - kw) / sw + 1] := by
  simp [conv2dShape, hg, hi, ho, hsh, hsw, hkh, hkw]

lemma actD_shape (hs : Bool) (m n h w : ℕ) :
    shapeOf (if hs then Desc.hswishD else Desc.preluD m) [n, m, h, w]
      = some [n, m, h, w] := by
  cases hs <;> simp [shapeOf, preluShape]

lemma ConvBlock_shape_1x1 (i o : ℕ) (hs : Bool) (n h w : ℕ)
    (hh : 1 ≤ h) (hw : 1 ≤ w) :
    shapeOf (ConvBlock i o (1, 1) (1, 1) (0, 0) 1 hs) [n, i, h, w]
      = some [n, o, h, w] := by
  have e1 : conv2dShape i o 1 1 1 1 0 0 1 [n, i, h, w] = some [n, o, h, w] := by
    rw [conv2dShape_pos i o 1 1 1 1 0 0 1 n h w (by decide) (by omega) (by omega)
        (by decide) (by decide) (by omega) (by omega)]
    have e2 : (h + 2 * 0 - 1) / 1 + 1 = h := by omega
    have e3 : (w + 2 * 0 - 1) / 1 + 1 = w := by omega
    rw [e2, e3]
  cases hs <;>
    simp [ConvBlock, shapeOf, shapeOfSeq, e1, bn2dShape, preluShape]

lemma ConvBlock_shape_3x3_s1 (i o g : ℕ) (hs : Bool) (n h w : ℕ)
    (hg : 0 < g) (hi : i % g = 0) (ho : o % g = 0) (hh : 1 ≤ h) (hw : 1 ≤ w) :
    shapeOf (ConvBlock i o (3, 3) (1, 1) (1, 1) g hs) [n, i, h, w]
      = some [n, o, h, w] := by
  have e1 : conv2dShape i o 3 3 1 1 1 1 g [n, i, h, w] = some [n, o, h, w] := by
    rw [conv2dShape_pos i o 3 3 1 1 1 1 g n h w hg hi ho (by decide) (by decide)
        (by omega) (by omega)]
    have e2 : (h + 2 * 1 - 3) / 1 + 1 = h := by omega
    have e3 : (w + 2 * 1 - 3) / 1 + 1 = w := by omega
    rw [e2, e3]
  cases hs <;>
    simp [ConvBlock, shapeOf, shapeOfSeq, e1, bn2dShape, preluShape]

lemma ConvBlock_shape_3x3_s2 (i o g : ℕ) (hs : Bool) (n h w : ℕ)
    (hg : 0 < g) (hi : i % g = 0) (ho : o % g = 0) (hh : 1 ≤ h) (hw : 1 ≤ w) :
    shapeOf (ConvBlock i o (3, 3) (2, 2) (1, 1) g hs) [n, i, h, w]
      = some [n, o, (h - 1) / 2 + 1, (w - 1) / 2 + 1] := by
  have e1 : conv2dShape i o 3 3 2 2 1 1 g [n, i, h, w]
      = some [n, o, (h - 1) / 2 + 1, (w - 1) / 2 + 1] := by
    rw [conv2dShape_pos i o 3 3 2 2 1 1 g n h w hg hi ho (by decide) (by decide)
        (by omega) (by omega)]
    have e2 : h + 2 * 1 - 3 = h - 1 := by omega
    have e3 : w + 2 * 1 - 3 = w - 1 := by omega
    rw [e2, e3]
  cases hs <;>
    simp [ConvBlock, shapeOf, shapeOfSeq, e1, bn2dShape, preluShape]

lemma LinearBlock_shape_1x1 (i o : ℕ) (n h w : ℕ) (hh : 1 ≤ h) (hw : 1 ≤ w) :
    shapeOf (LinearBlock i o (1, 1) (1, 1) (0, 0) 1) [n, i, h, w]
      = some [n, o, h, w] := by
  have e1 : conv2dShape i o 1 1 1 1 0 0 1 [n, i, h, w] = some [n, o, h, w] := by
    rw [conv2dShape_pos i o 1 1 1 1 0 0 1 n h w (by decide) (by omega) (by omega)
        (by decide) (by decide) (by omega) (by omega)]
    have e2 : (h + 2 * 0 - 1) / 1 + 1 = h := by omega
    have e3 : (w + 2 * 0 - 1) / 1 + 1 = w := by omega
    rw [e2, e3]
  simp [LinearBlock, shapeOf, shapeOfSeq, e1, bn2dShape]

lemma ECA_shape (c n h w : ℕ) :
    shapeOf (ECA c) [n, c, h, w] = some [n, c, h, w] := by
  simp [ECA, shapeOf, shapeOfSeq, avgpoolShape, flattenShape, linearShape,
    view4Shape, broadcastAdd_ones]

lemma shapeOf_dwD (res : Bool) (ds : List Desc) (s : List ℕ) :
    shapeOf (Desc.dwD res ds) s
      = (shapeOfSeq ds s).bind fun y => if res then broadcastAdd s y else some y := by
  simp [shapeOf]

lemma DepthWise_shape_s2 (i o g : ℕ) (hs : Bool) (n h w : ℕ)
    (hg : 0 < g) (hh : 1 ≤ h) (hw : 1 ≤ w) :
    shapeOf (DepthWise i o false (3, 3) (2, 2) (1, 1) g hs) [n, i, h, w]
      = some [n, o, (h - 1) / 2 + 1, (w - 1) / 2 + 1] := by
  have e1 := ConvBlock_shape_1x1 i g hs n h w hh hw
  have e2 := ConvBlock_shape_3x3_s2 g g g hs n h w hg (Nat.mod_self g)
    (Nat.mod_self g) hh hw
  have e3 := LinearBlock_shape_1x1 g o n ((h - 1) / 2 + 1) ((w - 1) / 2 + 1)
    (by omega) (by omega)
  rw [DepthWise, shapeOf_dwD, shapeOfSeq_cons, e1, Option.some_bind,
    shapeOfSeq_cons, e2, Option.some_bind, shapeOfSeq_cons, e3,
    Option.some_bind, shapeOfSeq_nil, Option.some_bind, if_neg]
  simp

lemma DepthWise_shape_res (c g : ℕ) (hs : Bool) (n h w : ℕ)
    (hg : 0 < g) (hh : 1 ≤ h) (hw : 1 ≤ w) :
    shapeOf (DepthWise c c true (3, 3) (1, 1) (1, 1) g hs) [n, c, h, w]
      = some [n, c, h, w] := by
  have e1 := ConvBlock_shape_1x1 c g hs n h w hh hw
  have e2 := ConvBlock_shape_3x3_s1 g g g hs n h w hg (Nat.mod_self g)
    (Nat.mod_self g) hh hw
  have e3 := LinearBlock_shape_1x1 g c n h w hh hw
  rw [DepthWise, shapeOf_dwD, shapeOfSeq_cons, e1, Option.some_bind,
    shapeOfSeq_cons, e2, Option.some_bind, shapeOfSeq_cons, e3,
    Option.some_bind, shapeOfSeq_nil, Option.some_bind, if_pos rfl,
    broadcastAdd_self]

lemma Residual_shape (nb c g : ℕ) (hs : Bool) (n h w : ℕ)
    (hg : 0 < g) (hh : 1 ≤ h) (hw : 1 ≤ w) :
    shapeOf (Residual c nb g (3, 3) (1, 1) (1, 1) hs) [n, c, h, w]
      = some [n, c, h, w] := by
  rw [Residual]
  induction nb with
  | zero => simp [shapeOf, shapeOfSeq]
  | succ k ih =>
      simp only [List.replicate_succ]
      rw [shapeOf_seqD] at ih ⊢
      rw [shapeOfSeq_cons, DepthWise_shape_res c g hs n h w hg hh hw,
        Option.some_bind]
      exact ih

lemma GDC_shape (e n : ℕ) : shapeOf (GDC e) [n, 512, 7, 7] = some [n, e] := by
  simp [GDC, LinearBlock, shapeOf, shapeOfSeq, conv2dShape, bn2dShape,
    flattenShape, linearShape, bn1dShape]

/-- The `self.layers` pipeline takes an (N, 3, 112, 112) input to
(N, 128*scale, 7, 7), for every hyperparameter choice. -/
lemma mbf2_layers_shape (f : Bool) (nf b0 b1 b2 b3 s n : ℕ) :
    shapeOfSeq (MobileFaceNet2.build f nf (b0, b1, b2, b3) s).layers
      [n, 3, 112, 112] = some [n, 128 * s, 7, 7] := by
  have rest : shapeOfSeq
      [ECA (64 * s),
       DepthWise (64 * s) (64 * s) false (3, 3) (2, 2) (1, 1) 128 false,
       Residual (64 * s) b1 128 (3, 3) (1, 1) (1, 1) false,
       DepthWise (64 * s) (128 * s) false (3, 3) (2, 2) (1, 1) 256 false,
       Residual (128 * s) b2 256 (3, 3) (1, 1) (1, 1) true,
       DepthWise (128 * s) (128 * s) false (3, 3) (2, 2) (1, 1) 512 true,
       Residual (128 * s) b3 256 (3, 3) (1, 1) (1, 1) true,
       ECA (128 * s)] [n, 64 * s, 56, 56] = some [n, 128 * s, 7, 7] := by
    rw [shapeOfSeq_cons, ECA_shape, Option.some_bind]
    rw [shapeOfSeq_cons,
      DepthWise_shape_s2 (64 * s) (64 * s) 128 false n 56 56 (by decide)
        (by decide) (by decide), Option.some_bind,
      show ((56 : ℕ) - 1) / 2 + 1 = 28 from by norm_num]
    rw [shapeOfSeq_cons,
      Residual_shape b1 (64 * s) 128 false n 28 28 (by decide) (by decide)
        (by decide), Option.some_bind]
    rw [shapeOfSeq_cons,
      DepthWise_shape_s2 (64 * s) (128 * s) 256 false n 28 28 (by decide)
        (by decide) (by decide), Option.some_bind,
      show ((28 : ℕ) - 1) / 2 + 1 = 14 from by norm_num]
    rw [shapeOfSeq_cons,
      Residual_shape b2 (128 * s) 256 true n 14 14 (by decide) (by decide)
        (by decide), Option.some_bind]
    rw [shapeOfSeq_cons,
      DepthWise_shape_s2 (128 * s) (128 * s) 512 true n 14 14 (by decide)
        (by decide) (by decide), Option.some_bind,
      show ((14 : ℕ) - 1) / 2 + 1 = 7 from by norm_num]
    rw [shapeOfSeq_cons,
      Residual_shape b3 (128 * s) 256 true n 7 7 (by decide) (by decide)
        (by decide), Option.some_bind]
    rw [shapeOfSeq_cons, ECA_shape, Option.some_bind, shapeOfSeq_nil]
  have first : shapeOf (ConvBlock 3 (64 * s) (3, 3) (2, 2) (1, 1) 1 false)
      [n, 3, 112, 112] = some [n, 64 * s, 56, 56] := by
    rw [ConvBlock_shape_3x3_s2 3 (64 * s) 1 false n 112 112 (by decide)
      (by omega) (by omega) (by decide) (by decide),
      show ((112 : ℕ) - 1) / 2 + 1 = 56 from by norm_num]
  simp only [MobileFaceNet2.build]
  rw [shapeOfSeq_cons, first, Option.some_bind, shapeOfSeq_cons]
  by_cases hb : b0 = 1
  · rw [if_pos hb,
      ConvBlock_shape_3x3_s1 (64 * s) (64 * s) 64 false n 56 56 (by decide)
        (by omega) (by omega) (by decide) (by decide), Option.some_bind, rest]
  · rw [if_neg hb,
      Residual_shape b0 (64 * s) 128 false n 56 56 (by decide) (by decide)
        (by decide), Option.some_bind, rest]

/-- The `conv_sep` head takes (N, 128*scale, 7, 7) to (N, 512, 7, 7). -/
lemma mbf2_conv_sep_shape (s n : ℕ) :
    shapeOf (ConvBlock (128 * s) 512 (1, 1) (1, 1) (0, 0) 1 true)
      [n, 128 * s, 7, 7] = some [n, 512, 7, 7] :=
  ConvBlock_shape_1x1 (128 * s) 512 true n 7 7 (by decide) (by decide)

/-! ## C1 and C2: output and stage shapes -/

/-- C1: For every input batch tensor of shape (N, 3, 112, 112) and every
construction of MobileFaceNet2 with hyperparameter num_features,
MobileFaceNet2.forward returns a tensor of shape (N, num_features): one
fixed-length embedding vector per image, whose length equals the
num_features hyperparameter. -/
theorem mbf2_forward_output_shape (f : Bool) (nf b0 b1 b2 b3 s n : ℕ) :
    MobileFaceNet2.forwardShape (MobileFaceNet2.build f nf (b0, b1, b2, b3) s)
      [n, 3, 112, 112] = some [n, nf] := by
  rw [MobileFaceNet2.forwardShape, mbf2_layers_shape, Option.some_bind]
  have hcs : (MobileFaceNet2.build f nf (b0, b1, b2, b3) s).conv_sep
      = ConvBlock (128 * s) 512 (1, 1) (1, 1) (0, 0) 1 true := rfl
  have hft : (MobileFaceNet2.build f nf (b0, b1, b2, b3) s).features
      = GDC nf := rfl
  rw [hcs, hft, mbf2_conv_sep_shape, Option.some_bind, GDC_shape]

/-- C2: For the hyperparameters used by get_mbf2 and get_mbf2_large and every
input of shape (N, 3, 112, 112), each stage boundary of MobileFaceNet2
composes without shape mismatch: the `self.layers` pipeline produces
(N, 128*scale, 7, 7), conv_sep turns it into 512 channels at 7x7 — exactly
what GDC's hard-coded LinearBlock(512, 512, kernel=(7,7)) and
Linear(512, embedding_size) expect — and the features head produces
(N, num_features). -/
theorem mbf2_stage_shapes_compose (f : Bool) (nf n : ℕ) :
    (shapeOfSeq (get_mbf2 f nf).layers [n, 3, 112, 112] = some [n, 256, 7, 7]
     ∧ shapeOf (get_mbf2 f nf).conv_sep [n, 256, 7, 7] = some [n, 512, 7, 7]
     ∧ shapeOf (get_mbf2 f nf).features [n, 512, 7, 7] = some [n, nf])
    ∧ (shapeOfSeq (get_mbf2_large f nf).layers [n, 3, 112, 112]
         = some [n, 512, 7, 7]
     ∧ shapeOf (get_mbf2_large f nf).conv_sep [n, 512, 7, 7]
         = some [n, 512, 7, 7]
     ∧ shapeOf (get_mbf2_large f nf).features [n, 512, 7, 7] = some [n, nf]) := by
  have h256 : (256 : ℕ) = 128 * 2 := by norm_num
  have h512 : (512 : ℕ) = 128 * 4 := by norm_num
  refine ⟨⟨?_, ?_, ?_⟩, ⟨?_, ?_, ?_⟩⟩
  · rw [get_mbf2, h256]; exact mbf2_layers_shape f nf 1 4 6 2 2 n
  · rw [get_mbf2, h256]
    exact mbf2_conv_sep_shape 2 n
  · exact GDC_shape nf n
  · rw [get_mbf2_large, h512]; exact mbf2_layers_shape f nf 2 8 12 4 4 n
  · rw [get_mbf2_large]
    have : shapeOf (ConvBlock (128 * 4) 512 (1, 1) (1, 1) (0, 0) 1 true)
        [n, 512, 7, 7] = some [n, 512, 7, 7] := by
      rw [h512]; exact mbf2_conv_sep_shape 4 n
    exact this
  · exact GDC_shape nf n

/-! ## C5: the autocast structure of forward

`forwardTrace` records the sequence of operations performed by
`MobileFaceNet2.forward` (source lines 168-174) together with a flag saying
whether the operation is executed inside the
`with torch.cuda.amp.autocast(self.fp16)` block: the `self.layers` loop runs
inside it; the `x.float()` cast (present exactly when `self.fp16`), the
`conv_sep` call and the `features` call run after the block. -/
inductive FwdStep where
  | applyLayer (i : ℕ)
  | castToFloat
  | applyConvSep
  | applyFeatures
deriving DecidableEq, Repr

/-- The operation trace of `MobileFaceNet2.forward`, in program order; the
Bool marks execution inside the autocast context. -/
def forwardTrace (m : MobileFaceNet2) : List (FwdStep × Bool) :=
  ((List.range m.layers.length).map fun i => (FwdStep.applyLayer i, true))
    ++ (if m.fp16 then [(FwdStep.castToFloat, false)] else [])
    ++ [(FwdStep.applyConvSep, false), (FwdStep.applyFeatures, false)]

/-- C5: In MobileFaceNet2.forward, exactly the layers in self.layers run
under the autocast context controlled by the fp16 flag; conv_sep and the
features head run outside it, and when fp16 is true the tensor entering
conv_sep is first cast back to full precision directly before conv_sep,
while when fp16 is false no cast occurs anywhere in the trace. -/
theorem mbf2_forward_autocast_structure (f : Bool) (nf : ℕ)
    (bl : ℕ × ℕ × ℕ × ℕ) (s : ℕ) :
    (∀ p ∈ forwardTrace (MobileFaceNet2.build f nf bl s),
        p.2 = true ↔ ∃ i, p.1 = FwdStep.applyLayer i)
    ∧ (if f then
         ∃ pre, forwardTrace (MobileFaceNet2.build f nf bl s)
           = pre ++ [(FwdStep.castToFloat, false), (FwdStep.applyConvSep, false),
                     (FwdStep.applyFeatures, false)]
       else
         (∀ b, (FwdStep.castToFloat, b) ∉ forwardTrace (MobileFaceNet2.build f nf bl s))
         ∧ ∃ pre, forwardTrace (MobileFaceNet2.build f nf bl s)
             = pre ++ [(FwdStep.applyConvSep, false), (FwdStep.applyFeatures, false)]) := by
  cases f with
  | true =>
      have htr : forwardTrace (MobileFaceNet2.build true nf bl s)
          = ((List.range (MobileFaceNet2.build true nf bl s).layers.length).map
              fun i => (FwdStep.applyLayer i, true))
            ++ [(FwdStep.castToFloat, false)]
            ++ [(FwdStep.applyConvSep, false), (FwdStep.applyFeatures, false)] := rfl
      constructor
      · intro p hp
        rw [htr] at hp
        simp only [List.mem_append, List.mem_map, List.mem_range,
          List.mem_cons, List.mem_singleton, List.not_mem_nil, or_false] at hp
        rcases hp with (⟨i, _, rfl⟩ | rfl) | rfl | rfl <;> simp
      · rw [if_pos rfl]
        refine ⟨((List.range (MobileFaceNet2.build true nf bl s).layers.length).map
          fun i => (FwdStep.applyLayer i, true)), ?_⟩
        rw [htr]
        simp
  | false =>
      have htr : forwardTrace (MobileFaceNet2.build false nf bl s)
          = ((List.range (MobileFaceNet2.build false nf bl s).layers.length).map
              fun i => (FwdStep.applyLayer i, true))
            ++ [(FwdStep.applyConvSep, false), (FwdStep.applyFeatures, false)] := rfl
      constructor
      · intro p hp
        rw [htr] at hp
        simp only [List.mem_append, List.mem_map, List.mem_range,
          List.mem_cons, List.mem_singleton, List.not_mem_nil, or_false] at hp
        rcases hp with ⟨i, _, rfl⟩ | rfl | rfl <;> simp
      · rw [if_neg Bool.false_ne_true]
        constructor
        · intro b hb
          rw [htr] at hb
          simp at hb
        · exact ⟨((List.range (MobileFaceNet2.build false nf bl s).layers.length).map
            fun i => (FwdStep.applyLayer i, true)), htr⟩

/-- Witness for the hypotheses embedded in the autocast theorem: instantiated
at a concrete construction, the cast step is indeed in the trace right before
conv_sep and features, and a concrete layer step is marked as inside the
autocast context. -/
theorem mbf2_forward_autocast_structure_witness :
    (∃ i, (FwdStep.applyLayer 0, true).1 = FwdStep.applyLayer i)
    ∧ ∃ pre, forwardTrace (MobileFaceNet2.build true 512 (1, 4, 6, 2) 2)
        = pre ++ [(FwdStep.castToFloat, false), (FwdStep.applyConvSep, false),
                  (FwdStep.applyFeatures, false)] := by
  have h := mbf2_forward_autocast_structure true 512 (1, 4, 6, 2) 2
  refine ⟨(h.1 (FwdStep.applyLayer 0, true) (by decide)).1 rfl, ?_⟩
  have h2 := h.2
  rw [if_pos rfl] at h2
  exact h2

/-! ## C6 and C9: block factorisation and the blocks[0] branch -/

/-- C6: Every DepthWise block factorizes into three stages: a 1x1 pointwise
ConvBlock expanding in_c to groups channels (groups=1), a grouped ConvBlock
whose groups parameter equals its channel count (groups in, groups out,
groups groups), and a 1x1 LinearBlock projecting groups channels to out_c. -/
theorem depthwise_three_stage_structure (in_c out_c : ℕ) (residual : Bool)
    (k s p : ℕ × ℕ) (g : ℕ) (hs : Bool) :
    DepthWise in_c out_c residual k s p g hs
      = Desc.dwD residual
          [Desc.seqD [Desc.conv2dD in_c g 1 1 1 1 0 0 1, Desc.bn2dD g,
                      if hs then Desc.hswishD else Desc.preluD g],
           Desc.seqD [Desc.conv2dD g g k.1 k.2 s.1 s.2 p.1 p.2 g, Desc.bn2dD g,
                      if hs then Desc.hswishD else Desc.preluD g],
           Desc.seqD [Desc.conv2dD g out_c 1 1 1 1 0 0 1, Desc.bn2dD out_c]] := by
  rw [DepthWise, ConvBlock, ConvBlock, LinearBlock]

/-- C9: The second stage of MobileFaceNet2 depends on whether blocks[0]
equals 1: if so it is a single non-residual grouped ConvBlock with groups=64,
otherwise a Residual stack of blocks[0] residual DepthWise blocks with
groups=128; in particular get_mbf2 (blocks[0]=1) gets the grouped ConvBlock
while get_mbf2_large (blocks[0]=2) gets a Residual stack of two DepthWise
blocks — a different layer kind, not merely a different count. -/
theorem mbf2_second_stage_branch (f : Bool) (nf b0 b1 b2 b3 s : ℕ) :
    ((MobileFaceNet2.build f nf (b0, b1, b2, b3) s).layers.get? 1
      = some (if b0 = 1 then
                ConvBlock (64 * s) (64 * s) (3, 3) (1, 1) (1, 1) 64 false
              else Residual (64 * s) b0 128 (3, 3) (1, 1) (1, 1) false))
    ∧ Residual (64 * s) b0 128 (3, 3) (1, 1) (1, 1) false
        = Desc.seqD (List.replicate b0
            (DepthWise (64 * s) (64 * s) true (3, 3) (1, 1) (1, 1) 128 false))
    ∧ (get_mbf2 f nf).layers.get? 1
        = some (ConvBlock 128 128 (3, 3) (1, 1) (1, 1) 64 false)
    ∧ (get_mbf2_large f nf).layers.get? 1
        = some (Desc.seqD (List.replicate 2
            (DepthWise 256 256 true (3, 3) (1, 1) (1, 1) 128 false))) := by
  refine ⟨rfl, rfl, ?_, ?_⟩
  · rw [get_mbf2]
    norm_num [MobileFaceNet2.build]
  · rw [get_mbf2_large]
    norm_num [MobileFaceNet2.build, Residual]

/-! ## Parameterised layers: initialisation and the forward state effects

`PLayer` is a layer description together with its parameter values.
Parameter tensors are modelled as functions `ℕ → ℚ` (flat index to value;
the machine floats of the host library are idealised as rationals).  Learned
parameters are separated from BatchNorm running statistics, which are
buffers updated by the library during a training-mode forward pass, not
learned parameters. -/
inductive PLayer where
  | conv2dP (in_c out_c kh kw sh sw ph pw g : ℕ) (weight : ℕ → ℚ)
  | bn2dP (n : ℕ) (weight bias rmean rvar : ℕ → ℚ)
  | bn1dP (n : ℕ) (weight bias rmean rvar : ℕ → ℚ)
  | preluP (n : ℕ) (slopes : ℕ → ℚ)
  | linearP (inF outF : ℕ) (hasBias : Bool) (weight bias : ℕ → ℚ)
  | hswishP
  | sigmoidP
  | avgpoolP
  | flattenP
  | seqP (subs : List PLayer)
  | ecaP (subs : List PLayer)
  | dwP (residual : Bool) (subs : List PLayer)

/-- Number of weight entries of a `nn.Conv2d`:
out_c * (in_c / groups) * kh * kw. -/
def convNumel (in_c out_c kh kw g : ℕ) : ℕ := out_c * (in_c / g) * kh * kw

mutual

/-- Parameter initialisation, mirroring `MobileFaceNet2._initialize_weights`
(source lines 154-166) together with the library defaults for the parameters
that the loop does not touch.  The torch global RNG is modelled as an
explicit stream `r` of standard-normal draws, consumed left to right in
module order (`self.modules()` order is construction order here); `c` is the
number of draws consumed so far.

Modelled from the spec (the layer classes come from the host library, whose
internals are not part of this repository): `nn.init.kaiming_normal_` fills
a weight tensor with fresh draws from the global RNG (one per entry; the
deterministic gain factor is absorbed into the draw), so Conv2d and Linear
weights read the next `numel` entries of the stream.  BatchNorm weight/bias
are deterministically filled with 1 and 0 by the loop (for BatchNorm1d, the
identical library default applies, as the loop only matches BatchNorm2d);
running statistics start at 0 and 1; `nn.PReLU` keeps its library default
slope 1/4; Linear biases are zeroed by the loop when present. -/
def initLayer : Desc → (ℕ → ℚ) → ℕ → PLayer × ℕ
  | Desc.conv2dD i o kh kw sh sw ph pw g, r, c =>
      (PLayer.conv2dP i o kh kw sh sw ph pw g (fun t => r (c + t)),
       c + convNumel i o kh kw g)
  | Desc.bn2dD m, _, c =>
      (PLayer.bn2dP m (fun _ => 1) (fun _ => 0) (fun _ => 0) (fun _ => 1), c)
  | Desc.bn1dD m, _, c =>
      (PLayer.bn1dP m (fun _ => 1) (fun _ => 0) (fun _ => 0) (fun _ => 1), c)
  | Desc.preluD m, _, c => (PLayer.preluP m (fun _ => 1/4), c)
  | Desc.hswishD, _, c => (PLayer.hswishP, c)
  | Desc.sigmoidD, _, c => (PLayer.sigmoidP, c)
  | Desc.avgpoolD, _, c => (PLayer.avgpoolP, c)
  | Desc.flattenD, _, c => (PLayer.flattenP, c)
  | Desc.linearD fi fo hb, r, c =>
      (PLayer.linearP fi fo hb (fun t => r (c + t)) (fun _ => 0), c + fo * fi)
  | Desc.seqD ds, r, c =>
      (PLayer.seqP (initLayers ds r c).1, (initLayers ds r c).2)
  | Desc.ecaD ds, r, c =>
      (PLayer.ecaP (initLayers ds r c).1, (initLayers ds r c).2)
  | Desc.dwD res ds, r, c =>
      (PLayer.dwP res (initLayers ds r c).1, (initLayers ds r c).2)

/-- Initialisation of a list of submodules, threading the draw counter. -/
def initLayers : List Desc → (ℕ → ℚ) → ℕ → List PLayer × ℕ
  | [], _, c => ([], c)
  | d :: ds, r, c =>
      ((initLayer d r c).1 :: (initLayers ds r (initLayer d r c).2).1,
       (initLayers ds r (initLayer d r c).2).2)

end

/-- The full parameterised MobileFaceNet2 model state. -/
structure MobileFaceNet2State where
  fp16 : Bool
  layersP : List PLayer
  conv_sepP : PLayer
  featuresP : PLayer

/-- Initialise a whole model from its description, consuming the RNG stream
in module order: `self.layers`, then `conv_sep`, then `features`. -/
def initModel (m : MobileFaceNet2) (r : ℕ → ℚ) : MobileFaceNet2State :=
  ⟨m.fp16,
   (initLayers m.layers r 0).1,
   (initLayer m.conv_sep r (initLayers m.layers r 0).2).1,
   (initLayer m.features r
     (initLayer m.conv_sep r (initLayers m.layers r 0).2).2).1⟩

/-- Construction of MobileFaceNet2 as executed at runtime: build the layer
graph from the hyperparameters and initialise all parameters from the
current global RNG state `r` (source lines 121-152; `_initialize_weights`
is called at the end of `__init__`). -/
def MobileFaceNet2.construct (fp16 : Bool) (num_features : ℕ)
    (blocks : ℕ × ℕ × ℕ × ℕ) (scale : ℕ) (r : ℕ → ℚ) : MobileFaceNet2State :=
  initModel (MobileFaceNet2.build fp16 num_features blocks scale) r

mutual

/-- Erase parameter values, recovering the layer description: the layer kind
and all its structural hyperparameters (channels, kernel, stride, padding,
groups, activation choice). -/
def archOf : PLayer → Desc
  | PLayer.conv2dP i o kh kw sh sw ph pw g _ => Desc.conv2dD i o kh kw sh sw ph pw g
  | PLayer.bn2dP m _ _ _ _ => Desc.bn2dD m
  | PLayer.bn1dP m _ _ _ _ => Desc.bn1dD m
  | PLayer.preluP m _ => Desc.preluD m
  | PLayer.linearP fi fo hb _ _ => Desc.linearD fi fo hb
  | PLayer.hswishP => Desc.hswishD
  | PLayer.sigmoidP => Desc.sigmoidD
  | PLayer.avgpoolP => Desc.avgpoolD
  | PLayer.flattenP => Desc.flattenD
  | PLayer.seqP subs => Desc.seqD (archOfList subs)
  | PLayer.ecaP subs => Desc.ecaD (archOfList subs)
  | PLayer.dwP res subs => Desc.dwD res (archOfList subs)

/-- Erasure on lists of submodules. -/
def archOfList : List PLayer → List Desc
  | [] => []
  | p :: ps => archOf p :: archOfList ps

end

/-- The architecture of a whole model state. -/
def archOfModel (m : MobileFaceNet2State) : Bool × List Desc × Desc × Desc :=
  (m.fp16, archOfList m.layersP, archOf m.conv_sepP, archOf m.featuresP)

mutual

/-- Learned parameters of a layer, in order: convolution weights, batchnorm
scale and shift, PReLU slopes, linear weights and (when present) biases.
BatchNorm running statistics are buffers, not learned parameters, and are
not listed. -/
def learnedP : PLayer → List (ℕ → ℚ)
  | PLayer.conv2dP _ _ _ _ _ _ _ _ _ w => [w]
  | PLayer.bn2dP _ w b _ _ => [w, b]
  | PLayer.bn1dP _ w b _ _ => [w, b]
  | PLayer.preluP _ s => [s]
  | PLayer.linearP _ _ hb w b => if hb then [w, b] else [w]
  | PLayer.hswishP => []
  | PLayer.sigmoidP => []
  | PLayer.avgpoolP => []
  | PLayer.flattenP => []
  | PLayer.seqP subs => learnedPList subs
  | PLayer.ecaP subs => learnedPList subs
  | PLayer.dwP _ subs => learnedPList subs

/-- Learned parameters of a list of submodules. -/
def learnedPList : List PLayer → List (ℕ → ℚ)
  | [] => []
  | p :: ps => learnedP p ++ learnedPList ps

end

/-- All learned parameters of a model state. -/
def learnedModel (m : MobileFaceNet2State) : List (ℕ → ℚ) :=
  learnedPList m.layersP ++ learnedP m.conv_sepP ++ learnedP m.featuresP

/-- Abstract value-level semantics of the host library's tensor kernels.

Modelled from the spec: the numerical behaviour of `nn.Conv2d`,
`nn.BatchNorm2d`/`nn.BatchNorm1d`, `nn.PReLU`, `nn.Linear`, the activations,
pooling, reshaping, broadcast addition and the `float()` precision cast is
library code outside this repository.  Tensor data is an opaque `List ℚ`;
each kernel is an arbitrary function of the layer's hyperparameters, its
current parameter values and the input data.  `bn2dMean`/`bn2dVar` (and the
1d versions) give the updated running statistics that a training-mode
batchnorm forward writes back into its buffers — the only state a library
layer forward mutates; the spec's lifecycle sentence states that learned
parameters are mutated only by the external optimizer. -/
structure LibSem where
  conv : ℕ → ℕ → ℕ → ℕ → ℕ → ℕ → ℕ → ℕ → ℕ → (ℕ → ℚ) → List ℚ → List ℚ
  bn2dOut : ℕ → (ℕ → ℚ) → (ℕ → ℚ) → (ℕ → ℚ) → (ℕ → ℚ) → List ℚ → List ℚ
  bn2dMean : ℕ → (ℕ → ℚ) → List ℚ → ℕ → ℚ
  bn2dVar : ℕ → (ℕ → ℚ) → List ℚ → ℕ → ℚ
  bn1dOut : ℕ → (ℕ → ℚ) → (ℕ → ℚ) → (ℕ → ℚ) → (ℕ → ℚ) → List ℚ → List ℚ
  bn1dMean : ℕ → (ℕ → ℚ) → List ℚ → ℕ → ℚ
  bn1dVar : ℕ → (ℕ → ℚ) → List ℚ → ℕ → ℚ
  preluOut : ℕ → (ℕ → ℚ) → List ℚ → List ℚ
  linearOut : ℕ → ℕ → Bool → (ℕ → ℚ) → (ℕ → ℚ) → List ℚ → List ℚ
  hswishOut : List ℚ → List ℚ
  sigmoidOut : List ℚ → List ℚ
  avgpoolOut : List ℚ → List ℚ
  flattenOut : List ℚ → List ℚ
  viewOut : List ℚ → List ℚ
  addOut : List ℚ → List ℚ → List ℚ
  floatCast : List ℚ → List ℚ

mutual

/-- Apply one layer: produce the output data and the layer's post-forward
state.  Leaf layers return their output via the library kernel; the only
state written is the batchnorm running statistics (training-mode buffer
update).  `seqP` chains submodules like `nn.Sequential`; `ecaP` mirrors
`ECA.forward` (source lines 62-69): `y = self.layers(x)`, reshape, then
`y + short_cut`; `dwP` mirrors `DepthWise.forward` (source lines 83-92):
run the blocks, then `short_cut + x` when residual. -/
def applyP (L : LibSem) : PLayer → List ℚ → List ℚ × PLayer
  | PLayer.conv2dP i o kh kw sh sw ph pw g w, x =>
      (L.conv i o kh kw sh sw ph pw g w x, PLayer.conv2dP i o kh kw sh sw ph pw g w)
  | PLayer.bn2dP m w b rm rv, x =>
      (L.bn2dOut m w b rm rv x,
       PLayer.bn2dP m w b (L.bn2dMean m rm x) (L.bn2dVar m rv x))
  | PLayer.bn1dP m w b rm rv, x =>
      (L.bn1dOut m w b rm rv x,
       PLayer.bn1dP m w b (L.bn1dMean m rm x) (L.bn1dVar m rv x))
  | PLayer.preluP m sl, x => (L.preluOut m sl x, PLayer.preluP m sl)
  | PLayer.linearP fi fo hb w b, x =>
      (L.linearOut fi fo hb w b x, PLayer.linearP fi fo hb w b)
  | PLayer.hswishP, x => (L.hswishOut x, PLayer.hswishP)
  | PLayer.sigmoidP, x => (L.sigmoidOut x, PLayer.sigmoidP)
  | PLayer.avgpoolP, x => (L.avgpoolOut x, PLayer.avgpoolP)
  | PLayer.flattenP, x => (L.flattenOut x, PLayer.flattenP)
  | PLayer.seqP subs, x =>
      ((applyPList L subs x).1, PLayer.seqP (applyPList L subs x).2)
  | PLayer.ecaP subs, x =>
      (L.addOut (L.viewOut (applyPList L subs x).1) x,
       PLayer.ecaP (applyPList L subs x).2)
  | PLayer.dwP res subs, x =>
      (if res then L.addOut x (applyPList L subs x).1 else (applyPList L subs x).1,
       PLayer.dwP res (applyPList L subs x).2)

/-- Apply a list of submodules in order, threading the data through. -/
def applyPList (L : LibSem) : List PLayer → List ℚ → List ℚ × List PLayer
  | [], x => (x, [])
  | p :: ps, x =>
      ((applyPList L ps (applyP L p x).1).1,
       (applyP L p x).2 :: (applyPList L ps (applyP L p x).1).2)

end

/-- Value- and state-level semantics of `MobileFaceNet2.forward` (source
lines 168-174): run `self.layers` in order, apply the `x.float()` cast
exactly when `self.fp16`, then `conv_sep`, then `features`; return the
output together with the post-forward model state. -/
def MobileFaceNet2.forwardP (L : LibSem) (m : MobileFaceNet2State)
    (x : List ℚ) : List ℚ × MobileFaceNet2State :=
  let x1 := (applyPList L m.layersP x).1
  let xc := if m.fp16 then L.floatCast x1 else x1
  ⟨(applyP L m.featuresP (applyP L m.conv_sepP xc).1).1,
   ⟨m.fp16,
    (applyPList L m.layersP x).2,
    (applyP L m.conv_sepP xc).2,
    (applyP L m.featuresP (applyP L m.conv_sepP xc).1).2⟩⟩

mutual

/-- A forward pass leaves every learned parameter of a layer unchanged:
only batchnorm running statistics (buffers) can differ afterwards. -/
theorem learned_applyP (L : LibSem) :
    ∀ (p : PLayer) (x : List ℚ), learnedP (applyP L p x).2 = learnedP p
  | PLayer.conv2dP i o kh kw sh sw ph pw g w, x => by
      simp [applyP, learnedP]
  | PLayer.bn2dP m w b rm rv, x => by simp [applyP, learnedP]
  | PLayer.bn1dP m w b rm rv, x => by simp [applyP, learnedP]
  | PLayer.preluP m sl, x => by simp [applyP, learnedP]
  | PLayer.linearP fi fo hb w b, x => by simp [applyP, learnedP]
  | PLayer.hswishP, x => by simp [applyP, learnedP]
  | PLayer.sigmoidP, x => by simp [applyP, learnedP]
  | PLayer.avgpoolP, x => by simp [applyP, learnedP]
  | PLayer.flattenP, x => by simp [applyP, learnedP]
  | PLayer.seqP subs, x => by
      simp [applyP, learnedP, learned_applyPList L subs x]
  | PLayer.ecaP subs, x => by
      simp [applyP, learnedP, learned_applyPList L subs x]
  | PLayer.dwP res subs, x => by
      simp [applyP, learnedP, learned_applyPList L subs x]

/-- List version of `learned_applyP`. -/
theorem learned_applyPList (L : LibSem) :
    ∀ (ps : List PLayer) (x : List ℚ),
      learnedPList (applyPList L ps x).2 = learnedPList ps
  | [], x => by simp [applyPList, learnedPList]
  | p :: ps, x => by
      simp [applyPList, learnedPList, learned_applyP L p x,
        learned_applyPList L ps (applyP L p x).1]

end

mutual

/-- A forward pass preserves the architecture of a layer. -/
theorem archOf_applyP (L : LibSem) :
    ∀ (p : PLayer) (x : List ℚ), archOf (applyP L p x).2 = archOf p
  | PLayer.conv2dP i o kh kw sh sw ph pw g w, x => by simp [applyP, archOf]
  | PLayer.bn2dP m w b rm rv, x => by simp [applyP, archOf]
  | PLayer.bn1dP m w b rm rv, x => by simp [applyP, archOf]
  | PLayer.preluP m sl, x => by simp [applyP, archOf]
  | PLayer.linearP fi fo hb w b, x => by simp [applyP, archOf]
  | PLayer.hswishP, x => by simp [applyP, archOf]
  | PLayer.sigmoidP, x => by simp [applyP, archOf]
  | PLayer.avgpoolP, x => by simp [applyP, archOf]
  | PLayer.flattenP, x => by simp [applyP, archOf]
  | PLayer.seqP subs, x => by simp [applyP, archOf, archOf_applyPList L subs x]
  | PLayer.ecaP subs, x => by simp [applyP, archOf, archOf_applyPList L subs x]
  | PLayer.dwP res subs, x => by simp [applyP, archOf, archOf_applyPList L subs x]

/-- List version of `archOf_applyP`. -/
theorem archOf_applyPList (L : LibSem) :
    ∀ (ps : List PLayer) (x : List ℚ),
      archOfList (applyPList L ps x).2 = archOfList ps
  | [], x => by simp [applyPList, archOfList]
  | p :: ps, x => by
      simp [applyPList, archOfList, archOf_applyP L p x,
        archOf_applyPList L ps (applyP L p x).1]

end

mutual

/-- Initialisation realises exactly the requested description. -/
theorem archOf_initLayer :
    ∀ (d : Desc) (r : ℕ → ℚ) (c : ℕ), archOf (initLayer d r c).1 = d
  | Desc.conv2dD i o kh kw sh sw ph pw g, r, c => by simp [initLayer, archOf]
  | Desc.bn2dD m, r, c => by simp [initLayer, archOf]
  | Desc.bn1dD m, r, c => by simp [initLayer, archOf]
  | Desc.preluD m, r, c => by simp [initLayer, archOf]
  | Desc.hswishD, r, c => by simp [initLayer, archOf]
  | Desc.sigmoidD, r, c => by simp [initLayer, archOf]
  | Desc.avgpoolD, r, c => by simp [initLayer, archOf]
  | Desc.flattenD, r, c => by simp [initLayer, archOf]
  | Desc.linearD fi fo hb, r, c => by simp [initLayer, archOf]
  | Desc.seqD ds, r, c => by simp [initLayer, archOf, archOf_initLayers ds r c]
  | Desc.ecaD ds, r, c => by simp [initLayer, archOf, archOf_initLayers ds r c]
  | Desc.dwD res ds, r, c => by simp [initLayer, archOf, archOf_initLayers ds r c]

/-- List version of `archOf_initLayer`. -/
theorem archOf_initLayers :
    ∀ (ds : List Desc) (r : ℕ → ℚ) (c : ℕ), archOfList (initLayers ds r c).1 = ds
  | [], r, c => by simp [initLayers, archOfList]
  | d :: ds, r, c => by
      simp [initLayers, archOfList, archOf_initLayer d r c,
        archOf_initLayers ds r (initLayer d r c).2]

end

/-! ## C8 and C7: frame and topology properties of forward -/

/-- C8: For every input batch, MobileFaceNet2.forward leaves every learned
parameter of the model (convolution weights, batchnorm scale/shift, PReLU
slopes, linear weights) unchanged, whatever the library kernel semantics:
parameters can only be mutated externally, never by the forward pass
itself.  (Batchnorm running statistics, which are buffers rather than
learned parameters, are the only state forward may write.) -/
theorem mbf2_forward_preserves_params (L : LibSem) (m : MobileFaceNet2State)
    (x : List ℚ) :
    learnedModel (MobileFaceNet2.forwardP L m x).2 = learnedModel m := by
  rw [MobileFaceNet2.forwardP, learnedModel, learnedModel]
  simp only [learned_applyP, learned_applyPList]

/-- C7: The layer graph of MobileFaceNet2 is a function of the hyperparameters
(fp16, num_features, blocks, scale) alone: two constructions with equal
hyperparameters have identical layer-type sequences and layer hyperparameters
whatever RNG state each consumed, the realised architecture is exactly the
built description, and a forward pass never alters the topology. -/
theorem mbf2_topology_from_hyperparams_only (f : Bool) (nf : ℕ)
    (bl : ℕ × ℕ × ℕ × ℕ) (s : ℕ) (r1 r2 r3 : ℕ → ℚ) (L : LibSem) (x : List ℚ) :
    archOfModel (MobileFaceNet2.construct f nf bl s r1)
      = archOfModel (MobileFaceNet2.construct f nf bl s r2)
    ∧ archOfModel (MobileFaceNet2.construct f nf bl s r1)
        = (f, (MobileFaceNet2.build f nf bl s).layers,
           (MobileFaceNet2.build f nf bl s).conv_sep,
           (MobileFaceNet2.build f nf bl s).features)
    ∧ archOfModel (MobileFaceNet2.forwardP L
        (MobileFaceNet2.construct f nf bl s r3) x).2
        = archOfModel (MobileFaceNet2.construct f nf bl s r3) := by
  have key : ∀ (r : ℕ → ℚ), archOfModel (MobileFaceNet2.construct f nf bl s r)
      = (f, (MobileFaceNet2.build f nf bl s).layers,
         (MobileFaceNet2.build f nf bl s).conv_sep,
         (MobileFaceNet2.build f nf bl s).features) := by
    intro r
    rw [MobileFaceNet2.construct, initModel, archOfModel]
    simp only [archOf_initLayer, archOf_initLayers]
    rfl
  refine ⟨(key r1).trans (key r2).symm, key r1, ?_⟩
  rw [MobileFaceNet2.forwardP, archOfModel, archOfModel]
  simp only [archOf_applyP, archOf_applyPList]

/-! ## C4: initialisation determinism -/

mutual

/-- The (weight, bias) pairs of all batchnorm layers of a layer state. -/
def bnParamsP : PLayer → List ((ℕ → ℚ) × (ℕ → ℚ))
  | PLayer.conv2dP _ _ _ _ _ _ _ _ _ _ => []
  | PLayer.bn2dP _ w b _ _ => [(w, b)]
  | PLayer.bn1dP _ w b _ _ => [(w, b)]
  | PLayer.preluP _ _ => []
  | PLayer.linearP _ _ _ _ _ => []
  | PLayer.hswishP => []
  | PLayer.sigmoidP => []
  | PLayer.avgpoolP => []
  | PLayer.flattenP => []
  | PLayer.seqP subs => bnParamsPList subs
  | PLayer.ecaP subs => bnParamsPList subs
  | PLayer.dwP _ subs => bnParamsPList subs

/-- List version of `bnParamsP`. -/
def bnParamsPList : List PLayer → List ((ℕ → ℚ) × (ℕ → ℚ))
  | [] => []
  | p :: ps => bnParamsP p ++ bnParamsPList ps

end

mutual

/-- What the initialisation policy assigns to each batchnorm of a
description: weight constantly 1 and bias constantly 0. -/
def bnConst : Desc → List ((ℕ → ℚ) × (ℕ → ℚ))
  | Desc.conv2dD _ _ _ _ _ _ _ _ _ => []
  | Desc.bn2dD _ => [(fun _ => 1, fun _ => 0)]
  | Desc.bn1dD _ => [(fun _ => 1, fun _ => 0)]
  | Desc.preluD _ => []
  | Desc.hswishD => []
  | Desc.sigmoidD => []
  | Desc.avgpoolD => []
  | Desc.flattenD => []
  | Desc.linearD _ _ _ => []
  | Desc.seqD ds => bnConstList ds
  | Desc.ecaD ds => bnConstList ds
  | Desc.dwD _ ds => bnConstList ds

/-- List version of `bnConst`. -/
def bnConstList : List Desc → List ((ℕ → ℚ) × (ℕ → ℚ))
  | [] => []
  | d :: ds => bnConst d ++ bnConstList ds

end

mutual

/-- Initialised batchnorm parameters do not depend on the RNG stream or the
draw counter: they are the deterministic constants of the policy. -/
theorem bnParams_initLayer :
    ∀ (d : Desc) (r : ℕ → ℚ) (c : ℕ), bnParamsP (initLayer d r c).1 = bnConst d
  | Desc.conv2dD i o kh kw sh sw ph pw g, r, c => by simp [initLayer, bnParamsP, bnConst]
  | Desc.bn2dD m, r, c => by simp [initLayer, bnParamsP, bnConst]
  | Desc.bn1dD m, r, c => by simp [initLayer, bnParamsP, bnConst]
  | Desc.preluD m, r, c => by simp [initLayer, bnParamsP, bnConst]
  | Desc.hswishD, r, c => by simp [initLayer, bnParamsP, bnConst]
  | Desc.sigmoidD, r, c => by simp [initLayer, bnParamsP, bnConst]
  | Desc.avgpoolD, r, c => by simp [initLayer, bnParamsP, bnConst]
  | Desc.flattenD, r, c => by simp [initLayer, bnParamsP, bnConst]
  | Desc.linearD fi fo hb, r, c => by simp [initLayer, bnParamsP, bnConst]
  | Desc.seqD ds, r, c => by
      simp [initLayer, bnParamsP, bnConst, bnParams_initLayers ds r c]
  | Desc.ecaD ds, r, c => by
      simp [initLayer, bnParamsP, bnConst, bnParams_initLayers ds r c]
  | Desc.dwD res ds, r, c => by
      simp [initLayer, bnParamsP, bnConst, bnParams_initLayers ds r c]

/-- List version of `bnParams_initLayer`. -/
theorem bnParams_initLayers :
    ∀ (ds : List Desc) (r : ℕ → ℚ) (c : ℕ),
      bnParamsPList (initLayers ds r c).1 = bnConstList ds
  | [], r, c => by simp [initLayers, bnParamsPList, bnConstList]
  | d :: ds, r, c => by
      simp [initLayers, bnParamsPList, bnConstList, bnParams_initLayer d r c,
        bnParams_initLayers ds r (initLayer d r c).2]

end

/-- Batchnorm (weight, bias) parameters of a whole model state. -/
def bnParamsModel (m : MobileFaceNet2State) : List ((ℕ → ℚ) × (ℕ → ℚ)) :=
  bnParamsPList m.layersP ++ bnParamsP m.conv_sepP ++ bnParamsP m.featuresP

/-- Two concrete global RNG states with different upcoming draws. -/
def rngZero : ℕ → ℚ := fun _ => 0

/-- A second RNG state whose next draw is 1 instead of 0. -/
def rngOne : ℕ → ℚ := fun _ => 1

/-- The weight entry at flat index 0 of the first Conv2d of the first layer
of a model state (the 3x3 stem convolution of MobileFaceNet2). -/
def firstConvWeight (m : MobileFaceNet2State) : Option ℚ :=
  match m.layersP with
  | PLayer.seqP (PLayer.conv2dP _ _ _ _ _ _ _ _ _ w :: _) :: _ => some (w 0)
  | _ => none

/-- C4 counterexample: two constructions of MobileFaceNet2 with identical
hyperparameters but different global RNG states do not yield identical
parameter values — the stem convolution weight differs already at flat
index 0, because `nn.init.kaiming_normal_` draws it from the RNG. -/
theorem mbf2_construct_not_rng_independent :
    MobileFaceNet2.construct false 512 (1, 4, 6, 2) 2 rngZero
      ≠ MobileFaceNet2.construct false 512 (1, 4, 6, 2) 2 rngOne := by
  intro h
  have h2 := congrArg firstConvWeight h
  have e0 : firstConvWeight (MobileFaceNet2.construct false 512 (1, 4, 6, 2) 2 rngZero)
      = some 0 := rfl
  have e1 : firstConvWeight (MobileFaceNet2.construct false 512 (1, 4, 6, 2) 2 rngOne)
      = some 1 := rfl
  rw [e0, e1] at h2
  exact absurd (Option.some.inj h2) (by norm_num)

/-- C4 (amended): All parameters are initialised at construction time by the
fixed policy of `_initialize_weights`; its BatchNorm branch is deterministic
(weight filled with 1, bias zeroed), so two constructions with the same
hyperparameters always yield identical BatchNorm weights and biases, whatever
global RNG state each consumed — whereas Conv2d and Linear weights (drawn
from the RNG by kaiming_normal_) agree only if the consumed RNG draws agree,
as the counterexample shows. -/
theorem mbf2_construct_bn_deterministic (f : Bool) (nf : ℕ)
    (bl : ℕ × ℕ × ℕ × ℕ) (s : ℕ) (r1 r2 : ℕ → ℚ) :
    bnParamsModel (MobileFaceNet2.construct f nf bl s r1)
      = bnParamsModel (MobileFaceNet2.construct f nf bl s r2) := by
  have key : ∀ (r : ℕ → ℚ), bnParamsModel (MobileFaceNet2.construct f nf bl s r)
      = bnConstList (MobileFaceNet2.build f nf bl s).layers
        ++ bnConst (MobileFaceNet2.build f nf bl s).conv_sep
        ++ bnConst (MobileFaceNet2.build f nf bl s).features := by
    intro r
    rw [MobileFaceNet2.construct, initModel, bnParamsModel]
    simp only [bnParams_initLayer, bnParams_initLayers]
  exact (key r1).trans (key r2).symm

/-! ## C3: value-level semantics of the ECA block

Tensors are indexed functions `Fin n → Fin c → Fin h → Fin w → ℚ`.
Modelled from the spec where the kernels are library code:
`AdaptiveAvgPool2d((1,1))` averages each channel plane, `Linear` is the
affine map `v ↦ W v + bias`, and `Sigmoid` — being transcendental — is
an explicit function parameter `sig` (the real sigmoid satisfies
`sig 0 = 1/2`, which is all the counterexample uses). -/

/-- Global average pooling to a per-channel statistic. -/
def avgPool11V (n c h w : ℕ) (x : Fin n → Fin c → Fin h → Fin w → ℚ) :
    Fin n → Fin c → ℚ :=
  fun i j => (∑ a : Fin h, ∑ b : Fin w, x i j a b) / ((h : ℚ) * (w : ℚ))

/-- `nn.Linear(m, k)` on a batch row: `W v + bias`. -/
def linearV (m k : ℕ) (W : Fin k → Fin m → ℚ) (bias : Fin k → ℚ)
    (v : Fin m → ℚ) : Fin k → ℚ :=
  fun j => (∑ t : Fin m, W j t * v t) + bias j

/-- The per-channel coefficient computed by `self.layers` in `ECA.forward`:
pool, flatten (a no-op on the (N, C, 1, 1) pooled data), linear, sigmoid
(source lines 55-60 and 65). -/
def ecaCoeffV (n c h w : ℕ) (sig : ℚ → ℚ) (W : Fin c → Fin c → ℚ)
    (bias : Fin c → ℚ) (x : Fin n → Fin c → Fin h → Fin w → ℚ) :
    Fin n → Fin c → ℚ :=
  fun i j => sig (linearV c c W bias (fun t => avgPool11V n c h w x i t) j)

/-- `ECA.forward` (source lines 62-69): compute the coefficient, reshape it
to (N, C, 1, 1) (a data no-op), and return `y + short_cut`, the coefficient
broadcast-added to the input. -/
def ecaForwardV (n c h w : ℕ) (sig : ℚ → ℚ) (W : Fin c → Fin c → ℚ)
    (bias : Fin c → ℚ) (x : Fin n → Fin c → Fin h → Fin w → ℚ) :
    Fin n → Fin c → Fin h → Fin w → ℚ :=
  fun i j a b => ecaCoeffV n c h w sig W bias x i j + x i j a b

/-- A concrete stand-in for the sigmoid in the counterexample: its tangent
line at 0, which agrees with the real sigmoid at the only evaluated point
(`sig 0 = 1/2`). -/
def sigTangent : ℚ → ℚ := fun q => 1 / 2 + q / 4

/-- The all-zero (1, 1, 1, 1) input tensor. -/
def xZero : Fin 1 → Fin 1 → Fin 1 → Fin 1 → ℚ := fun _ _ _ _ => 0

/-- A zero Linear weight matrix. -/
def wZero : Fin 1 → Fin 1 → ℚ := fun _ _ => 0

/-- A zero Linear bias vector. -/
def bZero : Fin 1 → ℚ := fun _ => 0

/-- C3 counterexample: the ECA output is not `x` scaled per channel by the
computed coefficient.  On the zero input with zero Linear parameters the
coefficient is `sig 0 = 1/2`, so the claimed multiplicative output would be
the zero tensor, but `ECA.forward` returns `y + short_cut = 1/2`. -/
theorem eca_not_channel_scaling :
    ecaForwardV 1 1 1 1 sigTangent wZero bZero xZero
      ≠ fun i j a b =>
          xZero i j a b * ecaCoeffV 1 1 1 1 sigTangent wZero bZero xZero i j := by
  intro h
  have h0 := congrFun (congrFun (congrFun (congrFun h 0) 0) 0) 0
  norm_num [ecaForwardV, ecaCoeffV, avgPool11V, linearV, sigTangent, xZero,
    wZero, bZero] at h0

/-- C3 (amended): the ECA block computes a per-channel coefficient from the
globally average-pooled statistics of x (via AdaptiveAvgPool2d, Linear,
Sigmoid) and adds it to the channels of x: the output is the coefficient
broadcast-added to x (`y + short_cut`), not x scaled by it. -/
theorem eca_adds_channel_coefficient (n c h w : ℕ) (sig : ℚ → ℚ)
    (W : Fin c → Fin c → ℚ) (bias : Fin c → ℚ)
    (x : Fin n → Fin c → Fin h → Fin w → ℚ) :
    ecaForwardV n c h w sig W bias x
      = fun i j a b =>
          sig ((∑ t : Fin c, W j t *
              ((∑ a2 : Fin h, ∑ b2 : Fin w, x i t a2 b2) / ((h : ℚ) * (w : ℚ))))
            + bias j) + x i j a b := rfl

/-! ## C10: HSwish ignores its inplace argument -/

/-- `nn.ReLU6` on one element: clamp to [0, 6] (library semantics, modelled
from the spec at the value level). -/
def relu6Q (q : ℚ) : ℚ := min (max q 0) 6

/-- `HSwish.__init__(inplace)` (source lines 19-21): the `inplace` argument
is accepted and discarded; the only stored state is the `ReLU6()` child
module, constructed without arguments. -/
def hswishStored (inplace : Bool) : ℚ → ℚ := relu6Q

/-- `HSwish.forward` (source lines 23-24) on one element:
`input * self.relu6(input + 3) / 6`, a pure function of the input. -/
def hswishForwardQ (stored : ℚ → ℚ) (input : ℚ) : ℚ :=
  input * stored (input + 3) / 6

/-- C10: The inplace constructor argument of HSwish has no effect: for every
input, HSwish(inplace=True) and HSwish(inplace=False) compute the same value
x * ReLU6(x + 3) / 6; the forward is a pure function of the input (the
stored ReLU6 is constructed non-inplace and the arithmetic allocates fresh
tensors), so the input is not mutated. -/
theorem hswish_inplace_no_effect (b1 b2 : Bool) (x : ℚ) :
    hswishForwardQ (hswishStored b1) x = hswishForwardQ (hswishStored b2) x
    ∧ hswishForwardQ (hswishStored b1) x = x * relu6Q (x + 3) / 6 :=
  ⟨rfl, rfl⟩
